import Mathlib

/-!
Verification of the WebGIS population-map application (`app.py`): a single
Flask route that loads a CSV table at module level, applies up to three row
filters taken from the submitted form, builds a Folium map with one marker
per row that has both coordinates, and renders a template.  We embed the
data model and the request pipeline as executable Lean definitions and
settle the specification's claims about them.
-/

namespace WebGIS

/-- Modelled from CPython string semantics restricted to ASCII:
lower-casing of one character (`str.lower`). -/
def asciiLower (c : Char) : Char :=
  if 65 ≤ c.toNat ∧ c.toNat ≤ 90 then Char.ofNat (c.toNat + 32) else c

/-- ASCII lower-casing of a string (`str.lower`). -/
def pyLower (s : String) : String := String.mk (s.data.map asciiLower)

/-- Modelled from CPython `str.casefold`, restricted to ASCII where it
coincides with lower-casing. -/
def pyCasefold (s : String) : String := pyLower s

/-- `astype(str)` / f-string display of a possibly missing (NaN) string
cell: pandas renders the missing value as the string "nan". -/
def pyStr : Option String → String
  | some s => s
  | none => "nan"

/-- Does the list `n` occur at the head of `h`? -/
def strStarts : List Char → List Char → Bool
  | [], _ => true
  | _ :: _, [] => false
  | a :: n, b :: h => a == b && strStarts n h

/-- Does the list `n` occur contiguously anywhere in `h`?  Used to model
`str.contains` for pattern strings free of regex metacharacters, where the
regex match is literal substring containment. -/
def strFind (n : List Char) : List Char → Bool
  | [] => n.isEmpty
  | c :: h => strStarts n (c :: h) || strFind n h

def isPySpace (c : Char) : Bool :=
  c == ' ' || c == '\t' || c == '\n' || c == '\r' || c == '\x0b' || c == '\x0c'

def pyStripBoth (l : List Char) : List Char :=
  ((l.dropWhile isPySpace).reverse.dropWhile isPySpace).reverse

def digitVal (c : Char) : Nat := c.toNat - 48

/-- Digit tail of a CPython integer literal: decimal digits, with single
underscores allowed between digits. -/
def pyDigits : Nat → List Char → Option Nat
  | acc, [] => some acc
  | acc, c :: rest =>
    if c.isDigit then pyDigits (10 * acc + digitVal c) rest
    else if c == '_' then
      match rest with
      | [] => none
      | d :: rest2 => if d.isDigit then pyDigits (10 * acc + digitVal d) rest2 else none
    else none

def pyNat : List Char → Option Nat
  | [] => none
  | c :: rest => if c.isDigit then pyDigits (digitVal c) rest else none

/-- Modelled from CPython `int(str)` for ASCII input: surrounding
whitespace, an optional sign, then decimal digits with optional single
underscores between digits; on anything else `int` raises `ValueError`,
i.e. `none` here.  Non-ASCII digits are not modelled. -/
def pyInt (s : String) : Option Int :=
  match pyStripBoth s.data with
  | '+' :: rest => (pyNat rest).map (fun n => (n : Int))
  | '-' :: rest => (pyNat rest).map (fun n => -(n : Int))
  | cs => (pyNat cs).map (fun n => (n : Int))

def natFromDigits (cs : List Char) : Nat := cs.foldl (fun a c => 10 * a + digitVal c) 0

/-- Exponent tail after `e`/`E`: an optional sign then at least one digit. -/
def parseExpDigits (cs : List Char) : Option Int :=
  match cs with
  | '+' :: rest => if rest ≠ [] ∧ rest.all Char.isDigit then some ((natFromDigits rest : Int)) else none
  | '-' :: rest => if rest ≠ [] ∧ rest.all Char.isDigit then some (-(natFromDigits rest : Int)) else none
  | rest => if rest ≠ [] ∧ rest.all Char.isDigit then some ((natFromDigits rest : Int)) else none

def parseFloatCore (cs : List Char) : Option Rat :=
  let ip := cs.takeWhile Char.isDigit
  let rest1 := cs.dropWhile Char.isDigit
  match rest1 with
  | [] => if ip = [] then none else some ((natFromDigits ip : Rat))
  | '.' :: rest2 =>
    let fp := rest2.takeWhile Char.isDigit
    let rest3 := rest2.dropWhile Char.isDigit
    if ip = [] ∧ fp = [] then none
    else
      let base : Rat := (natFromDigits ip : Rat) + (natFromDigits fp : Rat) / ((10 : Rat) ^ fp.length)
      match rest3 with
      | [] => some base
      | 'e' :: rest4 => (parseExpDigits rest4).map (fun k => base * (10 : Rat) ^ k)
      | 'E' :: rest4 => (parseExpDigits rest4).map (fun k => base * (10 : Rat) ^ k)
      | _ => none
  | 'e' :: rest2 =>
    if ip = [] then none
    else (parseExpDigits rest2).map (fun k => (natFromDigits ip : Rat) * (10 : Rat) ^ k)
  | 'E' :: rest2 =>
    if ip = [] then none
    else (parseExpDigits rest2).map (fun k => (natFromDigits ip : Rat) * (10 : Rat) ^ k)
  | _ => none

/-- Modelled from `pd.to_numeric(..., errors="coerce")` on a string cell:
decimal and scientific numerals, idealised as rationals (abstracting the
float64 rounding); an unparseable string coerces to a missing value
(`none`).  The special literals `inf`/`-inf` are not modelled. -/
def parseFloat (s : String) : Option Rat :=
  match pyStripBoth s.data with
  | '+' :: rest => parseFloatCore rest
  | '-' :: rest => (parseFloatCore rest).map Neg.neg
  | cs => parseFloatCore cs

/-- One row of the population table after type coercion: `nama` as read
(missing cell = `none`); `lat`, `lon`, `populasi` numeric-or-missing. -/
structure Row where
  nama : Option String
  lat : Option Rat
  lon : Option Rat
  populasi : Option Rat
deriving DecidableEq

/-- The three request parameters read by `home` from the submitted form
(each one defaults to the empty string). -/
structure Params where
  min_pop : String
  keyword : String
  name : String
deriving DecidableEq

/-- Row predicate of `dff["populasi"] >= min_pop`: a missing `populasi`
(NaN) compares false, so the row is dropped. -/
def popAtLeast (n : Int) (r : Row) : Bool :=
  match r.populasi with
  | some v => decide ((n : Rat) ≤ v)
  | none => false

/-- The `min_pop` block of `home`: on a non-empty parameter, try
`int(...)`; on success filter by `populasi >= min_pop`, on `ValueError`
do nothing. -/
def minPopStep (minStr : String) (l : List Row) : List Row :=
  if minStr = "" then l
  else
    match pyInt minStr with
    | some n => l.filter (popAtLeast n)
    | none => l

/-- Row predicate of `astype(str).str.contains(keyword, case=False,
na=False)`.  `str.contains` interprets the keyword as a regular
expression; for keywords free of regex metacharacters (`literalPattern`)
it is case-insensitive substring containment, which is what we embed. -/
def kwMatch (kw : String) (r : Row) : Bool :=
  strFind (pyLower kw).data (pyLower (pyStr r.nama)).data

def kwStep (kw : String) (l : List Row) : List Row :=
  if kw = "" then l else l.filter (kwMatch kw)

/-- Row predicate of `astype(str).str.casefold() == selected_name.casefold()`. -/
def nameMatch (sel : String) (r : Row) : Bool :=
  pyCasefold (pyStr r.nama) == pyCasefold sel

def nameStep (sel : String) (l : List Row) : List Row :=
  if sel = "" then l else l.filter (nameMatch sel)

/-- The full filter pipeline of `home`, in source order: minimum
population, then keyword, then exact name. -/
def homeFiltered (p : Params) (l : List Row) : List Row :=
  nameStep p.name (kwStep p.keyword (minPopStep p.min_pop l))

/-- The regular-expression metacharacters of Python `re`. -/
def regexMeta : List Char :=
  ['.', '^', '$', '*', '+', '?', '\x7b', '\x7d', '[', ']', '\\', '|', '(', ')']

/-- A keyword free of regex metacharacters: `re` matches it literally. -/
def literalPattern (s : String) : Bool :=
  s.data.all (fun c => !(regexMeta.contains c))

def parenBalanced : List Char → Nat → Bool
  | [], d => d == 0
  | c :: rest, d =>
    if c == '(' then parenBalanced rest (d + 1)
    else if c == ')' then
      match d with
      | 0 => false
      | Nat.succ d2 => parenBalanced rest d2
    else parenBalanced rest d

/-- Modelled from Python `re.compile` failure, simplified to the
unbalanced-group condition: a pattern with unbalanced parentheses (such
as "(") fails to compile, and `str.contains` then raises `re.error`;
patterns free of metacharacters always compile.  Other failure modes of
`re` are not modelled, and no theorem below depends on them. -/
def patternCompiles (pat : String) : Bool := parenBalanced pat.data 0

def coordsPresent (r : Row) : Bool := r.lat.isSome && r.lon.isSome

/-- CPython `int(float)`: truncation toward zero. -/
def ratTrunc (q : Rat) : Int :=
  if q < 0 then -((q.num.natAbs / q.den : Nat) : Int) else ((q.num.natAbs / q.den : Nat) : Int)

def chunk3 : List Char → List (List Char)
  | a :: b :: c :: rest => [a, b, c] :: chunk3 rest
  | [] => []
  | l => [l]

/-- Modelled from the Python format spec used in the popup f-string:
decimal digits grouped in threes by commas. -/
def fmtComma (n : Int) : String :=
  let ds := Nat.toDigits 10 n.natAbs
  let grouped := ((chunk3 ds.reverse).map List.reverse).reverse
  let body := String.intercalate "," (grouped.map String.mk)
  if n < 0 then "-" ++ body else body

structure Marker where
  location : Rat × Rat
  popup : String
  tooltip : String
deriving DecidableEq

/-- The request-dependent content of the Folium map built by `build_map`.
The static basemap layers, minimap, fullscreen control and legend carry no
request-dependent data and are not modelled. -/
structure MapModel where
  location : Rat × Rat
  zoom_start : Nat
  markers : List Marker
deriving DecidableEq

def meanStep (acc : Rat × Nat) (x : Option Rat) : Rat × Nat :=
  match x with
  | some v => (acc.1 + v, acc.2 + 1)
  | none => acc

/-- Modelled from pandas `Series.mean()` (skipna): a running (sum, count)
fold over the column; `none` when no value is present. -/
def seriesMean (xs : List (Option Rat)) : Option Rat :=
  let p := xs.foldl meanStep (0, 0)
  if p.2 = 0 then none else some (p.1 / (p.2 : Rat))

/-- Specification-side mean: the sum of the present values over their
number. -/
def meanOfPresent (xs : List (Option Rat)) : Option Rat :=
  let v := xs.filterMap id
  if v.length = 0 then none else some (v.sum / (v.length : Rat))

/-- The map centre chosen by `build_map`: the column means when the frame
is non-empty and each coordinate column has a present value, else the
fixed fallback [-6.5, 107.0]. -/
def center (l : List Row) : Rat × Rat :=
  if 0 < l.length ∧ (l.map Row.lat).any Option.isSome = true ∧ (l.map Row.lon).any Option.isSome = true then
    ((seriesMean (l.map Row.lat)).getD 0, (seriesMean (l.map Row.lon)).getD 0)
  else ((-6.5 : Rat), 107)

/-- One marker as placed by the row loop of `build_map`. -/
def mkMarker (r : Row) : Marker :=
  { location := (r.lat.getD 0, r.lon.getD 0)
    popup :=
      match r.populasi with
      | some v => pyStr r.nama ++ "<br>Populasi: " ++ fmtComma (ratTrunc v)
      | none => pyStr r.nama
    tooltip := pyStr r.nama }

/-- `build_map`: centre the map, then place one marker per row surviving
`dropna(subset=["lat", "lon"])`, counting as it goes; returns the map and
the marker count. -/
def buildMap (dframe : List Row) : MapModel × Nat :=
  let kept := dframe.filter coordsPresent
  ({ location := center dframe, zoom_start := 8, markers := kept.map mkMarker }, kept.length)

/-- The context handed to `render_template("home.html", ...)`; the
rendered HTML is modelled as a function of exactly these arguments. -/
structure Response where
  map_html : MapModel
  min_pop : String
  keyword : String
  names : List String
  selected_name : String
  result_count : Nat
deriving DecidableEq

def renderTemplate (m : MapModel) (minPop kw : String) (ns : List String) (sel : String) (rc : Nat) : Response :=
  { map_html := m, min_pop := minPop, keyword := kw, names := ns
    selected_name := sel, result_count := rc }

/-- Module-level state: the coerced table `df` and the dropdown list
`NAMES`. -/
structure GlobalState where
  df : List Row
  names : List String
deriving DecidableEq

/-- `df.copy()`: a fresh frame with the same contents; in value semantics
the same value. -/
def dfCopy (l : List Row) : List Row := l

/-- The `home` request handler.  `Except.error` models the uncaught
`re.error` that `str.contains` raises when a non-empty keyword fails to
compile as a regex; otherwise the three filter steps run in source order
and the template is rendered. -/
def homeM (p : Params) (s : GlobalState) : Except Unit Response :=
  if p.keyword = "" ∨ patternCompiles p.keyword = true then
    let dff := homeFiltered p (dfCopy s.df)
    Except.ok (renderTemplate (buildMap dff).1 p.min_pop p.keyword s.names p.name (buildMap dff).2)
  else Except.error ()

def handle (p : Params) (s : GlobalState) : GlobalState × Except Unit Response :=
  (s, homeM p s)

/-- Serve a sequence of requests against the module state. -/
def serve (s : GlobalState) : List Params → GlobalState × List (Except Unit Response)
  | [] => (s, [])
  | p :: ps =>
    let first := handle p s
    let rest := serve first.1 ps
    (rest.1, first.2 :: rest.2)

/-- All response components except the echoed raw `min_pop` string. -/
def stripMin (r : Response) : MapModel × String × List String × String × Nat :=
  (r.map_html, r.keyword, r.names, r.selected_name, r.result_count)

def applySeq (fs : List (Row → Bool)) (l : List Row) : List Row :=
  fs.foldl (fun acc f => acc.filter f) l

/-- The predicate of the `min_pop` block as a single row predicate:
vacuously true when the parameter does not parse (the
`except ValueError: pass` branch). -/
def minPred (minStr : String) (r : Row) : Bool :=
  match pyInt minStr with
  | some n => popAtLeast n r
  | none => true

/-- The row predicates active in a request: one per non-empty parameter. -/
def activeFilters (p : Params) : List (Row → Bool) :=
  (if p.min_pop = "" then [] else [minPred p.min_pop])
    ++ (if p.keyword = "" then [] else [kwMatch p.keyword])
    ++ (if p.name = "" then [] else [nameMatch p.name])

/-- A parsed CSV: header and rows of cells (`none` = empty cell / NaN). -/
structure Csv where
  header : List String
  rows : List (List (Option String))

def requiredCols : List String := ["nama", "lat", "lon", "populasi"]

/-- Exact-name column lookup, `df[col]`: the index of the first matching
header entry, `none` when the exact name is absent (pandas `KeyError`). -/
def colIdx : List String → String → Option Nat
  | [], _ => none
  | x :: rest, c => if x == c then some 0 else (colIdx rest c).map (fun i => i + 1)

def cellAt (row : List (Option String)) (i : Nat) : Option String :=
  (row.get? i).join

inductive LoadErr
  | missingColumns
  | keyError
deriving DecidableEq

def coerceRow (iN iLa iLo iP : Nat) (row : List (Option String)) : Row :=
  { nama := cellAt row iN
    lat := (cellAt row iLa).bind parseFloat
    lon := (cellAt row iLo).bind parseFloat
    populasi := (cellAt row iP).bind parseFloat }

/-- Module-level load: the lower-cased required-column check (raising
`ValueError` when a lower-cased required name is missing), then
`to_numeric(..., errors="coerce")` on `lat`, `lon`, `populasi` through
exact-name column access (`KeyError` when an exact lower-case column is
absent although its lower-casing passed the check). -/
def loadData (csv : Csv) : Except LoadErr (List Row) :=
  if ∀ c ∈ requiredCols, c ∈ csv.header.map pyLower then
    match colIdx csv.header "nama", colIdx csv.header "lat", colIdx csv.header "lon", colIdx csv.header "populasi" with
    | some iN, some iLa, some iLo, some iP => Except.ok (csv.rows.map (coerceRow iN iLa iLo iP))
    | _, _, _, _ => Except.error LoadErr.keyError
  else Except.error LoadErr.missingColumns

/-- Concrete rows and states used by counterexamples and witnesses. -/
def rowB : Row := { nama := some "Bandung", lat := some 1, lon := some 1, populasi := some 5 }

def rowNoLat : Row := { nama := some "X", lat := none, lon := some 107, populasi := some 10 }

def rowNoName : Row := { nama := none, lat := some 1, lon := some 1, populasi := some 5 }

def stB : GlobalState := { df := [rowB], names := ["Bandung"] }

def pEmpty : Params := { min_pop := "", keyword := "", name := "" }

def pBadMin : Params := { min_pop := "abc", keyword := "", name := "" }

def pC7 : Params := { min_pop := "5", keyword := "a", name := "x" }

def csvW : Csv :=
  { header := ["nama", "lat", "lon", "populasi"]
    rows := [[some "A", some "x", some "107", some "12"]] }

/-- `strStarts` decides the existence of a tail decomposition. -/
theorem strStarts_iff : ∀ (n h : List Char), strStarts n h = true ↔ ∃ t, h = n ++ t := by
  intro n
  induction n with
  | nil => intro h; simp [strStarts]
  | cons a n ih =>
    intro h
    cases h with
    | nil => simp [strStarts]
    | cons b t =>
      simp only [strStarts, Bool.and_eq_true, beq_iff_eq, List.cons_append, ih]
      constructor
      · rintro ⟨hab, u, hu⟩
        exact ⟨u, by rw [hab, hu]⟩
      · rintro ⟨u, hu⟩
        injection hu with h1 h2
        exact ⟨h1.symm, u, h2⟩

/-- `strFind` decides contiguous (substring) containment. -/
theorem strFind_iff (n : List Char) : ∀ h, strFind n h = true ↔ ∃ a b, h = a ++ n ++ b := by
  intro h
  induction h with
  | nil =>
    constructor
    · intro hf
      have hn : n = [] := by simpa [strFind, List.isEmpty_iff] using hf
      exact ⟨[], [], by simp [hn]⟩
    · rintro ⟨a, b, hab⟩
      have h2 := List.append_eq_nil.mp hab.symm
      have h3 := List.append_eq_nil.mp h2.1
      simp [strFind, List.isEmpty_iff, h3.2]
  | cons c t ih =>
    simp only [strFind, Bool.or_eq_true, ih, strStarts_iff]
    constructor
    · rintro (⟨u, hu⟩ | ⟨a, b, hab⟩)
      · exact ⟨[], u, by simpa using hu⟩
      · exact ⟨c :: a, b, by simp [hab]⟩
    · rintro ⟨a, b, hab⟩
      cases a with
      | nil => exact Or.inl ⟨b, by simpa using hab⟩
      | cons x a2 =>
        right
        injection hab with h1 h2
        exact ⟨a2, b, h2⟩

/-- `List.all` is invariant under permutation of the list. -/
theorem perm_all_eq {α : Type} {fs gs : List α} (h : fs.Perm gs) (p : α → Bool) :
    fs.all p = gs.all p := by
  induction h with
  | nil => rfl
  | cons x h ih => simp [List.all_cons, ih]
  | swap x y l => cases hp : p x <;> cases hq : p y <;> simp [List.all_cons, hp, hq]
  | trans h1 h2 ih1 ih2 => exact ih1.trans ih2

/-- Sequential filtering equals one filter by the conjunction. -/
theorem applySeq_eq_filter :
    ∀ (fs : List (Row → Bool)) (l : List Row),
      applySeq fs l = l.filter (fun r => fs.all (fun f => f r)) := by
  intro fs
  induction fs with
  | nil => intro l; simp [applySeq]
  | cons f fs ih =>
    intro l
    have h1 : applySeq (f :: fs) l = applySeq fs (l.filter f) := rfl
    rw [h1, ih, List.filter_filter]
    apply List.filter_congr
    intro x _
    simp [List.all_cons, Bool.and_comm]

/-- Sequential filtering is invariant under permuting the filters. -/
theorem applySeq_perm {fs gs : List (Row → Bool)} (h : fs.Perm gs) (l : List Row) :
    applySeq fs l = applySeq gs l := by
  rw [applySeq_eq_filter, applySeq_eq_filter]
  apply List.filter_congr
  intro x _
  exact perm_all_eq h _

theorem minPopStep_eq (m : String) (l : List Row) (hm : m ≠ "") :
    minPopStep m l = l.filter (minPred m) := by
  unfold minPopStep minPred
  rw [if_neg hm]
  cases hp : pyInt m
  · simp
  · simp

theorem homeFiltered_eq_applySeq (p : Params) (l : List Row) :
    homeFiltered p l = applySeq (activeFilters p) l := by
  unfold homeFiltered activeFilters kwStep nameStep
  by_cases h1 : p.min_pop = ""
  · by_cases h2 : p.keyword = "" <;> by_cases h3 : p.name = "" <;>
      simp [h1, h2, h3, applySeq, minPopStep]
  · rw [minPopStep_eq _ _ h1]
    by_cases h2 : p.keyword = "" <;> by_cases h3 : p.name = "" <;>
      simp [h1, h2, h3, applySeq]

theorem literal_compiles_aux :
    ∀ (l : List Char) (d : Nat), (∀ c ∈ l, regexMeta.contains c = false) →
      parenBalanced l d = (d == 0) := by
  intro l
  induction l with
  | nil => intro d _; rfl
  | cons c rest ih =>
    intro d hall
    have hc := hall c (List.mem_cons_self _ _)
    have h1 : c ≠ '(' := by
      intro he; rw [he] at hc; exact absurd hc (by decide)
    have h2 : c ≠ ')' := by
      intro he; rw [he] at hc; exact absurd hc (by decide)
    have hrest : ∀ x ∈ rest, regexMeta.contains x = false :=
      fun x hx => hall x (List.mem_cons_of_mem _ hx)
    unfold parenBalanced
    rw [if_neg (by simpa using h1), if_neg (by simpa using h2)]
    exact ih d hrest

/-- A keyword free of regex metacharacters always compiles as a regex. -/
theorem literal_compiles (s : String) (h : literalPattern s = true) :
    patternCompiles s = true := by
  unfold patternCompiles
  unfold literalPattern at h
  have hall : ∀ c ∈ s.data, regexMeta.contains c = false := by
    intro c hc
    have h2 := List.all_eq_true.mp h c hc
    simpa using h2
  rw [literal_compiles_aux s.data 0 hall]
  rfl

theorem minPopStep_skip (m : String) (l : List Row) (h : pyInt m = none) :
    minPopStep m l = l := by
  unfold minPopStep
  by_cases hm : m = ""
  · rw [if_pos hm]
  · rw [if_neg hm, h]

theorem colIdx_isSome_iff : ∀ (h : List String) (c : String), (colIdx h c).isSome = true ↔ c ∈ h := by
  intro h c
  induction h with
  | nil => simp [colIdx]
  | cons x rest ih =>
    unfold colIdx
    by_cases hx : x = c
    · subst hx
      simp
    · rw [if_neg (by simpa using hx)]
      have hmap : ((colIdx rest c).map (fun i => i + 1)).isSome = (colIdx rest c).isSome := by
        cases colIdx rest c <;> rfl
      rw [hmap, ih]
      constructor
      · intro hm; exact List.mem_cons_of_mem _ hm
      · intro hm
        rcases List.mem_cons.mp hm with he | hm2
        · exact absurd he.symm hx
        · exact hm2

theorem meanStep_fold :
    ∀ (xs : List (Option Rat)) (s : Rat) (n : Nat),
      xs.foldl meanStep (s, n) = (s + (xs.filterMap id).sum, n + (xs.filterMap id).length) := by
  intro xs
  induction xs with
  | nil => intro s n; simp
  | cons x rest ih =>
    intro s n
    cases x with
    | none => simp [meanStep, List.filterMap_cons, ih s n]
    | some v =>
      simp only [List.foldl_cons, meanStep]
      have hfm : List.filterMap id (some v :: rest) = v :: List.filterMap id rest := by simp
      rw [ih (s + v) (n + 1), hfm]
      simp only [List.sum_cons, List.length_cons]
      rw [Prod.mk.injEq]
      constructor
      · ring
      · omega

theorem seriesMean_eq_meanOfPresent (xs : List (Option Rat)) :
    seriesMean xs = meanOfPresent xs := by
  unfold seriesMean meanOfPresent
  rw [show ((0 : Rat), (0 : Nat)) = ((0 : Rat), (0 : Nat)) from rfl, meanStep_fold]
  simp

/-- C1 counterexample: a request over a table whose single row has a
missing `lat` yields `result_count = 0`, while the filtered table has one
row; so `result_count` is not the number of rows surviving the filters,
and no marker is placed for that row. -/
theorem C1_count_counterexample :
    (homeM pEmpty { df := [rowNoLat], names := [] }).toOption.map Response.result_count ≠
      some (homeFiltered pEmpty [rowNoLat]).length := by
  decide

/-- C1 (amended): `build_map` places one marker per filtered row that has
both `lat` and `lon` present, and `result_count` equals the number of such
rows (rows of the filtered table with a missing coordinate get no marker
and are not counted). -/
theorem C1_markers_count_amended (dframe : List Row) :
    (buildMap dframe).1.markers.length = dframe.countP (fun r => r.lat.isSome && r.lon.isSome) ∧
      (buildMap dframe).2 = dframe.countP (fun r => r.lat.isSome && r.lon.isSome) := by
  have hc : coordsPresent = (fun r : Row => r.lat.isSome && r.lon.isSome) := rfl
  rw [← hc]
  unfold buildMap
  constructor
  · simp [List.length_map, List.countP_eq_length_filter]
  · simp [List.countP_eq_length_filter]

/-- C2 counterexample: with selection "bandung" the dropdown filter keeps
a row whose `nama` is "Bandung", which is not exactly the selected name;
the comparison is case-folded, not exact. -/
theorem C2_case_counterexample :
    nameStep "bandung" [rowB] = [rowB] ∧ rowB.nama ≠ some "bandung" := by
  constructor
  · rfl
  · decide

/-- C2 (amended): with a non-empty selection the dropdown filter keeps
exactly the rows whose displayed name (a missing `nama` displays as
"nan") equals the selected name up to case folding. -/
theorem C2_name_filter_amended (sel : String) (hs : sel ≠ "") (l : List Row) (r : Row) :
    r ∈ nameStep sel l ↔ r ∈ l ∧ pyCasefold (pyStr r.nama) = pyCasefold sel := by
  unfold nameStep
  rw [if_neg hs]
  simp [List.mem_filter, nameMatch]

theorem C2_name_filter_amended_witness :
    rowB ∈ nameStep "bandung" [rowB] ↔
      rowB ∈ [rowB] ∧ pyCasefold (pyStr rowB.nama) = pyCasefold "bandung" :=
  C2_name_filter_amended "bandung" (by decide) [rowB] rowB

/-- C3 counterexample: with keyword "na" the keyword filter keeps a row
whose `nama` is missing (it displays as the string "nan", which contains
"na"), contradicting the claim that rows with a missing name are removed. -/
theorem C3_missing_name_counterexample :
    kwStep "na" [rowNoName] = [rowNoName] ∧ rowNoName.nama = none :=
  ⟨rfl, rfl⟩

/-- C3 (amended): for a non-empty keyword free of regex metacharacters,
the keyword filter keeps exactly the rows whose displayed name (a missing
`nama` displays as "nan") contains the keyword as a substring ignoring
ASCII letter case; keywords with metacharacters are interpreted as
regular expressions instead. -/
theorem C3_keyword_filter_amended (kw : String) (hk : kw ≠ "")
    (_hlit : literalPattern kw = true) (l : List Row) (r : Row) :
    r ∈ kwStep kw l ↔
      r ∈ l ∧ ∃ a b, (pyLower (pyStr r.nama)).data = a ++ (pyLower kw).data ++ b := by
  unfold kwStep
  rw [if_neg hk]
  simp only [List.mem_filter, kwMatch, strFind_iff]

theorem C3_keyword_filter_amended_witness :
    rowB ∈ kwStep "an" [rowB] ↔
      rowB ∈ [rowB] ∧ ∃ a b, (pyLower (pyStr rowB.nama)).data = a ++ (pyLower "an").data ++ b :=
  C3_keyword_filter_amended "an" (by decide) (by decide) [rowB] rowB

/-- C4 counterexample: the keyword "(" is an invalid regular expression,
so `str.contains` raises an uncaught `re.error` and the handler does not
return rendered HTML for that request. -/
theorem C4_invalid_regex_counterexample :
    homeM { min_pop := "", keyword := "(", name := "" } stB = Except.error () := rfl

/-- C4 (amended): for every request whose keyword is empty or free of
regex metacharacters (with any `min_pop` and `name` values, GET or POST),
the handler returns rendered HTML through the templating call; a keyword
that fails to compile as a regex raises an uncaught `re.error`. -/
theorem C4_renders_amended (p : Params) (s : GlobalState)
    (h : p.keyword = "" ∨ literalPattern p.keyword = true) :
    ∃ m rc, homeM p s = Except.ok (renderTemplate m p.min_pop p.keyword s.names p.name rc) := by
  have hc : p.keyword = "" ∨ patternCompiles p.keyword = true := by
    rcases h with h | h
    · exact Or.inl h
    · exact Or.inr (literal_compiles _ h)
  refine ⟨(buildMap (homeFiltered p (dfCopy s.df))).1,
    (buildMap (homeFiltered p (dfCopy s.df))).2, ?_⟩
  unfold homeM
  rw [if_pos hc]

theorem C4_renders_amended_witness :
    ∃ m rc, homeM pEmpty stB =
      Except.ok (renderTemplate m pEmpty.min_pop pEmpty.keyword stB.names pEmpty.name rc) :=
  C4_renders_amended pEmpty stB (Or.inl rfl)

/-- C5 counterexample: with the unparseable `min_pop` "abc" the raw string
is still echoed into the template context, so the response is not equal to
the response of the request with no minimum-population constraint. -/
theorem C5_echo_counterexample :
    (homeM pBadMin stB).toOption.map Response.min_pop ≠
      (homeM pEmpty stB).toOption.map Response.min_pop := by
  decide

/-- C5 (amended): an unparseable non-empty `min_pop` is absorbed: the
minimum-population filter is skipped and the map, the result count and all
other template data equal those of the request with no minimum-population
constraint, the other two filters still applied; only the echoed raw
`min_pop` string differs. -/
theorem C5_parse_skip_amended (p : Params) (s : GlobalState) (h : pyInt p.min_pop = none) :
    (homeM p s).map stripMin = (homeM { p with min_pop := "" } s).map stripMin := by
  obtain ⟨mp, kw, nm⟩ := p
  dsimp only at h ⊢
  unfold homeM homeFiltered
  dsimp only
  rw [minPopStep_skip mp _ h, minPopStep_skip "" _ rfl]
  by_cases hc : kw = "" ∨ patternCompiles kw = true
  · rw [if_pos hc, if_pos hc]
    rfl
  · rw [if_neg hc, if_neg hc]

theorem C5_parse_skip_amended_witness :
    (homeM pBadMin stB).map stripMin = (homeM { pBadMin with min_pop := "" } stB).map stripMin :=
  C5_parse_skip_amended pBadMin stB rfl

/-- C6: when `min_pop` is non-empty and parses as the integer `n`, the
minimum-population filter keeps exactly the rows whose `populasi` is a
present number at least `n`; rows with a missing `populasi` are removed. -/
theorem C6_min_pop_filter (m : String) (n : Int) (hm : m ≠ "") (hp : pyInt m = some n)
    (l : List Row) (r : Row) :
    r ∈ minPopStep m l ↔ r ∈ l ∧ ∃ v, r.populasi = some v ∧ (n : Rat) ≤ v := by
  unfold minPopStep
  rw [if_neg hm, hp]
  simp only [List.mem_filter]
  constructor
  · rintro ⟨h1, h2⟩
    refine ⟨h1, ?_⟩
    unfold popAtLeast at h2
    cases hpop : r.populasi with
    | some v =>
      rw [hpop] at h2
      exact ⟨v, rfl, by simpa using h2⟩
    | none =>
      rw [hpop] at h2
      cases h2
  · rintro ⟨h1, v, hv, hle⟩
    refine ⟨h1, ?_⟩
    unfold popAtLeast
    rw [hv]
    simpa using hle

theorem C6_min_pop_filter_witness :
    rowB ∈ minPopStep "5" [rowB] ↔
      rowB ∈ [rowB] ∧ ∃ v, rowB.populasi = some v ∧ ((5 : Int) : Rat) ≤ v :=
  C6_min_pop_filter "5" 5 (by decide) rfl [rowB] rowB

/-- C7: the three filters are independent boolean row predicates, each
active iff its parameter is non-empty; the pipeline equals one filter by
the conjunction of the active predicates, and applying the active filters
in any order yields the same filtered table.  (For a keyword with regex
metacharacters the keyword predicate is the regex match instead; the
hypothesis restricts to the literal case the embedding models.) -/
theorem C7_filters_conj_and_order (p : Params) (l : List Row) (fs : List (Row → Bool))
    (_hkw : p.keyword = "" ∨ literalPattern p.keyword = true)
    (h : fs.Perm (activeFilters p)) :
    homeFiltered p l = applySeq fs l ∧
      homeFiltered p l = l.filter (fun r => (activeFilters p).all (fun f => f r)) := by
  constructor
  · rw [homeFiltered_eq_applySeq, applySeq_perm h]
  · rw [homeFiltered_eq_applySeq, applySeq_eq_filter]

theorem C7_filters_conj_and_order_witness :
    homeFiltered pC7 [rowB] = applySeq [kwMatch "a", minPred "5", nameMatch "x"] [rowB] ∧
      homeFiltered pC7 [rowB] = [rowB].filter (fun r => (activeFilters pC7).all (fun f => f r)) :=
  C7_filters_conj_and_order pC7 [rowB] [kwMatch "a", minPred "5", nameMatch "x"]
    (Or.inr (by decide))
    (by
      have he : activeFilters pC7 = [minPred "5", kwMatch "a", nameMatch "x"] := rfl
      rw [he]
      exact List.Perm.swap (minPred "5") (kwMatch "a") [nameMatch "x"])

/-- C8: loading succeeds exactly when the four required exact column names
are present (a required column absent, exactly or up to lower-casing,
makes the load fail with an error); on success every row is type-coerced,
`lat`, `lon` and `populasi` going through the numeric parse with an
unparseable entry becoming a missing value rather than failing the load. -/
theorem C8_load_coercion (csv : Csv) :
    ((loadData csv).toOption.isSome = true ↔ ∀ c ∈ requiredCols, c ∈ csv.header) ∧
      (∀ t, loadData csv = Except.ok t →
        t = csv.rows.map (coerceRow ((colIdx csv.header "nama").getD 0)
          ((colIdx csv.header "lat").getD 0) ((colIdx csv.header "lon").getD 0)
          ((colIdx csv.header "populasi").getD 0))) := by
  constructor
  · constructor
    · intro hok
      unfold loadData at hok
      by_cases hreq : ∀ c ∈ requiredCols, c ∈ csv.header.map pyLower
      · rw [if_pos hreq] at hok
        have hsome : (colIdx csv.header "nama").isSome = true ∧
            (colIdx csv.header "lat").isSome = true ∧
            (colIdx csv.header "lon").isSome = true ∧
            (colIdx csv.header "populasi").isSome = true := by
          cases h1 : colIdx csv.header "nama" <;> cases h2 : colIdx csv.header "lat" <;>
            cases h3 : colIdx csv.header "lon" <;> cases h4 : colIdx csv.header "populasi" <;>
            rw [h1, h2, h3, h4] at hok <;>
            simp [Except.toOption] at hok ⊢
        intro c hc
        simp only [requiredCols] at hc
        simp only [List.mem_cons] at hc
        rcases hc with rfl | rfl | rfl | rfl | hc
        · exact (colIdx_isSome_iff _ _).mp hsome.1
        · exact (colIdx_isSome_iff _ _).mp hsome.2.1
        · exact (colIdx_isSome_iff _ _).mp hsome.2.2.1
        · exact (colIdx_isSome_iff _ _).mp hsome.2.2.2
        · exact absurd hc (List.not_mem_nil _)
      · rw [if_neg hreq] at hok
        exact absurd hok (by simp [Except.toOption])
    · intro hall
      unfold loadData
      have hreq : ∀ c ∈ requiredCols, c ∈ csv.header.map pyLower := by
        intro c hc
        have hmem : c ∈ csv.header := hall c hc
        have hlc : pyLower c = c := by
          simp only [requiredCols, List.mem_cons, List.not_mem_nil, or_false] at hc
          rcases hc with rfl | rfl | rfl | rfl <;> rfl
        rw [← hlc]
        exact List.mem_map_of_mem _ hmem
      rw [if_pos hreq]
      obtain ⟨i1, hi1⟩ := Option.isSome_iff_exists.mp
        ((colIdx_isSome_iff csv.header "nama").mpr (hall _ (by simp [requiredCols])))
      obtain ⟨i2, hi2⟩ := Option.isSome_iff_exists.mp
        ((colIdx_isSome_iff csv.header "lat").mpr (hall _ (by simp [requiredCols])))
      obtain ⟨i3, hi3⟩ := Option.isSome_iff_exists.mp
        ((colIdx_isSome_iff csv.header "lon").mpr (hall _ (by simp [requiredCols])))
      obtain ⟨i4, hi4⟩ := Option.isSome_iff_exists.mp
        ((colIdx_isSome_iff csv.header "populasi").mpr (hall _ (by simp [requiredCols])))
      rw [hi1, hi2, hi3, hi4]
      rfl
  · intro t ht
    unfold loadData at ht
    by_cases hreq : ∀ c ∈ requiredCols, c ∈ csv.header.map pyLower
    · rw [if_pos hreq] at ht
      cases h1 : colIdx csv.header "nama" <;> cases h2 : colIdx csv.header "lat" <;>
        cases h3 : colIdx csv.header "lon" <;> cases h4 : colIdx csv.header "populasi" <;>
        rw [h1, h2, h3, h4] at ht <;>
        first
          | (injection ht
             rename_i ht2
             rw [← ht2]
             rfl)
          | injection ht
    · rw [if_neg hreq] at ht
      exact absurd ht (by simp)

theorem C8_load_coercion_witness :
    [({ nama := some "A", lat := none, lon := some (107 : Rat), populasi := some (12 : Rat) } : Row)] =
      csvW.rows.map (coerceRow ((colIdx csvW.header "nama").getD 0)
        ((colIdx csvW.header "lat").getD 0) ((colIdx csvW.header "lon").getD 0)
        ((colIdx csvW.header "populasi").getD 0)) :=
  (C8_load_coercion csvW).2
    [({ nama := some "A", lat := none, lon := some (107 : Rat), populasi := some (12 : Rat) } : Row)]
    (by rfl)

/-- C9: the map is centred at the fixed fallback [-6.5, 107.0] when the
filtered table is empty or all of its `lat` values or all of its `lon`
values are missing; otherwise at the mean of the present `lat` values and
the mean of the present `lon` values. -/
theorem C9_map_center (l : List Row) :
    (buildMap l).1.location =
      if l ≠ [] ∧ (∃ r ∈ l, r.lat ≠ none) ∧ (∃ r ∈ l, r.lon ≠ none) then
        ((meanOfPresent (l.map Row.lat)).getD 0, (meanOfPresent (l.map Row.lon)).getD 0)
      else ((-6.5 : Rat), 107) := by
  have h1 : (buildMap l).1.location = center l := rfl
  rw [h1]
  unfold center
  rw [seriesMean_eq_meanOfPresent, seriesMean_eq_meanOfPresent]
  apply if_congr
  · constructor
    · rintro ⟨hlen, ha1, ha2⟩
      refine ⟨by simpa [List.length_pos] using hlen, ?_, ?_⟩
      · obtain ⟨x, hx, hs⟩ := List.any_eq_true.mp ha1
        obtain ⟨r, hr, hrx⟩ := List.mem_map.mp hx
        exact ⟨r, hr, by rw [← hrx] at hs; simpa [Option.isSome_iff_ne_none] using hs⟩
      · obtain ⟨x, hx, hs⟩ := List.any_eq_true.mp ha2
        obtain ⟨r, hr, hrx⟩ := List.mem_map.mp hx
        exact ⟨r, hr, by rw [← hrx] at hs; simpa [Option.isSome_iff_ne_none] using hs⟩
    · rintro ⟨hne, ⟨r1, hr1, hs1⟩, ⟨r2, hr2, hs2⟩⟩
      refine ⟨by simpa [List.length_pos] using hne, ?_, ?_⟩
      · exact List.any_eq_true.mpr ⟨r1.lat, List.mem_map_of_mem _ hr1,
          by simpa [Option.isSome_iff_ne_none] using hs1⟩
      · exact List.any_eq_true.mpr ⟨r2.lon, List.mem_map_of_mem _ hr2,
          by simpa [Option.isSome_iff_ne_none] using hs2⟩
  · rfl
  · rfl

/-- C10: every request operates on a copy of the loaded table: the module
state (the table `df` and the dropdown list `NAMES`) is unchanged by any
sequence of requests, and every response is the one computed against the
initial state, so no request's filters affect a later request. -/
theorem C10_requests_pure (s : GlobalState) (ps : List Params) :
    (serve s ps).1 = s ∧ (serve s ps).2 = ps.map (fun p => homeM p s) := by
  induction ps with
  | nil => exact ⟨rfl, rfl⟩
  | cons p ps ih =>
    refine ⟨?_, ?_⟩
    · show (serve s ps).1 = s
      exact ih.1
    · show (handle p s).2 :: (serve s ps).2 = homeM p s :: ps.map (fun q => homeM q s)
      rw [ih.2]
      rfl

end WebGIS
